import Mathlib

/-
Verification of the shuper_whisper dictation pipeline.

Shallow embedding of the Python sources:
  - src/shuper_whisper/smart_text.py   (text shaping pipeline)
  - src/shuper_whisper/hotkey.py       (hold/toggle hotkey state machine)
  - src/shuper_whisper/audio.py        (capture engine and level history)
  - src/shuper_whisper/transcriber.py  (transcription adapter)
  - src/shuper_whisper/app.py          (coordinator wiring the above)

Modelling conventions:
  - Python `str` values are lists of characters (`PyStr`); `str.lower`,
    `str.strip`, `str.isspace` and the two `re` patterns of smart_text.py
    are embedded for the ASCII character range in which hotkey strings and
    the tested texts live.
  - Audio samples and RMS loudness values are rationals; the RMS
    computation itself (numpy `sqrt(mean(x**2))`, floating point) is kept
    abstract as a function parameter of the capture callback, since no
    claim depends on its value.
  - Timestamps (`time.time()`, float seconds) are modelled in whole
    milliseconds as naturals; the 0.2 s threshold becomes 200 ms.
-/

namespace ShuperWhisper

/-- Python strings as lists of characters. -/
abbrev PyStr := List Char

/-- Python `str.isspace` on one character (ASCII whitespace). -/
def pyIsSpace (c : Char) : Bool :=
  c == ' ' || c == '\t' || c == '\n' || c == '\r' || c == '\x0b' || c == '\x0c'

/-- Python `str.lower` (ASCII case folding). -/
def pyLower (s : PyStr) : PyStr :=
  s.map Char.toLower

/-- Python `str.lstrip()`. -/
def pyStripLeft (s : PyStr) : PyStr :=
  s.dropWhile pyIsSpace

/-- Python `str.rstrip()`. -/
def pyStripRight (s : PyStr) : PyStr :=
  (s.reverse.dropWhile pyIsSpace).reverse

/-- Python `str.strip()`. -/
def pyStrip (s : PyStr) : PyStr :=
  pyStripRight (pyStripLeft s)

/-- Python regex `\w` on one character (ASCII word characters). -/
def pyIsWord (c : Char) : Bool :=
  c.isAlphanum || c == '_'

/-! ## smart_text.py -/

/-- `SENTENCE_ENDERS = frozenset(".!?")` from smart_text.py. -/
def SENTENCE_ENDERS : List Char := ['.', '!', '?']

/-- `_capitalize_first` from smart_text.py: upper-case the first character. -/
def capitalize_first : PyStr → PyStr
  | [] => []
  | c :: rest => Char.toUpper c :: rest

/-- `apply_smart_spacing` from smart_text.py.  A `context` of `none`
models Python `None`; `some []` models the empty string, which Python's
`not context` also treats as "no context". -/
def apply_smart_spacing (context : Option PyStr) (text : PyStr) : PyStr :=
  if text = [] then text
  else
    match context with
    | none => ' ' :: text
    | some ctx =>
      if ctx = [] then ' ' :: text
      else
        match ctx.getLast? with
        | none => ' ' :: text
        | some c =>
          if c == '\n' || c == '\r' then capitalize_first text
          else if pyIsSpace c then text
          else if c ∈ SENTENCE_ENDERS then ' ' :: capitalize_first text
          else ' ' :: text

/-- `apply_bullet_mode` from smart_text.py. -/
def apply_bullet_mode (context : Option PyStr) (text : PyStr) : PyStr :=
  if text = [] then text
  else
    let bullet := '-' :: ' ' :: text
    match context with
    | none => bullet
    | some ctx =>
      if ctx = [] then bullet
      else if ctx.getLast? == some '\n' || ctx.getLast? == some '\r' then bullet
      else '\n' :: bullet

/-- The alternatives of `_GREETING_PATTERNS` in their source order. -/
def GREETING_ALTS : List PyStr :=
  [("hi".data), ("hello".data), ("hey".data), ("dear".data),
   ("good morning".data), ("good afternoon".data), ("good evening".data)]

/-- The alternatives of `_SIGNOFF_PATTERNS` in their source order. -/
def SIGNOFF_ALTS : List PyStr :=
  [("best".data), ("best regards".data), ("regards".data), ("thanks".data),
   ("thank you".data), ("sincerely".data), ("cheers".data),
   ("kind regards".data), ("warm regards".data), ("yours truly".data),
   ("respectfully".data), ("take care".data)]

/-- Case-insensitive literal prefix test (`re.IGNORECASE` alternatives). -/
def ciHasPrefixAt (pat t : PyStr) : Bool :=
  (t.take pat.length).map Char.toLower == pat

/-- Match end of the greeting regex tail `(\s+\w+)?\s*,?` starting after a
matched alternative of length `i`, on the remaining text `rest`.  `\s` and
`\w` are disjoint character classes, so the greedy match never needs to
backtrack and maximal munch is exact. -/
def greetingTailEnd (i : Nat) (rest : PyStr) : Nat :=
  let sp := rest.takeWhile pyIsSpace
  let afterSp := rest.drop sp.length
  let w := afterSp.takeWhile pyIsWord
  let consumed := if sp.length > 0 && w.length > 0 then sp.length + w.length else 0
  let rest2 := rest.drop consumed
  let sp2 := rest2.takeWhile pyIsSpace
  let j := i + consumed + sp2.length
  if (rest2.drop sp2.length).head? == some ',' then j + 1 else j

/-- `_GREETING_PATTERNS.match(text)`: `some e` is `match.end()`, `none` is
no match.  Alternation takes the first alternative (in pattern order) that
matches, since the optional tail always succeeds. -/
def greetingMatchEnd (t : PyStr) : Option Nat :=
  (GREETING_ALTS.find? (fun g => ciHasPrefixAt g t)).map
    (fun g => greetingTailEnd g.length (t.drop g.length))

/-- `_SIGNOFF_PATTERNS.match(s)` where the pattern is anchored by `$`: the
whole of `s` must be an alternative followed by `\s*` and an optional
comma.  (In smart_text.py `s` is always `text.strip()`.) -/
def isSignoffFull (t : PyStr) : Bool :=
  SIGNOFF_ALTS.any (fun a =>
    ciHasPrefixAt a t &&
    (let rest := (t.drop a.length).dropWhile pyIsSpace
     rest == [] || rest == [',']))

/-- `apply_email_mode` from smart_text.py. -/
def apply_email_mode (text : PyStr) : PyStr :=
  if text = [] then text
  else if isSignoffFull (pyStrip text) then '\n' :: '\n' :: text
  else
    match greetingMatchEnd text with
    | some e =>
      let greeting := pyStripRight (text.take e)
      let body := pyStripLeft (text.drop e)
      if body ≠ [] then greeting ++ ('\n' :: '\n' :: body)
      else greeting ++ ['\n', '\n']
    | none => text

/-- `process_text` from smart_text.py: email shaping first (if enabled),
then bullet formatting, else smart spacing.  (The Python defaults are
`smart_spacing=True, bullet_mode=False, email_mode=False`; the flags are
explicit here.) -/
def process_text (context : Option PyStr) (text : PyStr)
    (smart_spacing bullet_mode email_mode : Bool) : PyStr :=
  if text = [] then text
  else
    let result := text
    let result := if email_mode then apply_email_mode result else result
    if bullet_mode then apply_bullet_mode context result
    else if smart_spacing then apply_smart_spacing context result
    else result


/-! ## hotkey.py : parsing -/

/-- `MODIFIER_NAMES` from hotkey.py. -/
def MODIFIER_NAMES : List PyStr :=
  [("ctrl".data), ("shift".data), ("alt".data), ("windows".data),
   ("win".data), ("super".data), ("left ctrl".data), ("right ctrl".data),
   ("left shift".data), ("right shift".data), ("left alt".data),
   ("right alt".data), ("left windows".data), ("right windows".data)]

/-- Python `str.split(sep)` for a one-character separator: every
occurrence of the separator cuts, an empty string splits to `[""]`. -/
def pySplit (sep : Char) : PyStr → List PyStr
  | [] => [[]]
  | c :: rest =>
    let r := pySplit sep rest
    if c = sep then [] :: r
    else
      match r with
      | [] => [[c]]
      | p :: ps => (c :: p) :: ps

/-- `_normalize_modifier` from hotkey.py: lower, strip, and map the
`super`/`win` aliases to `windows`. -/
def normalize_modifier (mod : PyStr) : PyStr :=
  let mod := pyStrip (pyLower mod)
  if mod = ("super".data) ∨ mod = ("win".data) then ("windows".data) else mod

/-- The list comprehension of `parse_hotkey`:
`[p.strip().lower() for p in hotkey_str.split("+")]`. -/
def hotkeyParts (hotkey_str : PyStr) : List PyStr :=
  (pySplit '+' hotkey_str).map (fun p => pyLower (pyStrip p))

/-- `parse_hotkey` from hotkey.py: one part means no modifiers; otherwise
all but the last part are normalized modifiers and the last part is the
trigger key (not normalized). -/
def parse_hotkey (hotkey_str : PyStr) : List PyStr × PyStr :=
  match hotkeyParts hotkey_str with
  | [] => ([], [])
  | [p] => ([], p)
  | p :: q :: rest =>
    ((p :: q :: rest).dropLast.map normalize_modifier, (p :: q :: rest).getLastD [])

/-! ## hotkey.py : the hold/toggle intent state machine -/

namespace Hotkey

/-- `TOGGLE_THRESHOLD = 0.2` seconds, in milliseconds. -/
def TOGGLE_THRESHOLD : Nat := 200

/-- The mutable intent-detection flags of `HotkeyManager`. -/
structure State where
  recording : Bool
  toggle_active : Bool
  key_is_down : Bool
  press_time : Option Nat
deriving DecidableEq

/-- The flags as set by `HotkeyManager.__init__` (and reset by `unregister`). -/
def init : State := ⟨false, false, false, none⟩

/-- The two semantic signals delivered to the registered handlers. -/
inductive Signal
  | start
  | stop
deriving DecidableEq

/-- `_on_trigger_press`.  `modsHeld` is the value of `_modifiers_pressed()`
at the event, `now` is `time.time()` in milliseconds.  Returns the
successor flags and the emitted signals, in order. -/
def on_trigger_press (modsHeld : Bool) (now : Nat) (s : State) : State × List Signal :=
  if !modsHeld then (s, [])
  else if s.key_is_down then (s, [])
  else
    let s := { s with key_is_down := true, press_time := some now }
    if s.recording && s.toggle_active then
      ({ s with recording := false, toggle_active := false }, [.stop])
    else if !s.recording then
      ({ s with recording := true }, [.start])
    else (s, [])

/-- `_on_trigger_release`.  Python's `if self._press_time` is falsy both
for `None` and for the timestamp `0.0`, hence the extra `t = 0` case. -/
def on_trigger_release (now : Nat) (s : State) : State × List Signal :=
  let s := { s with key_is_down := false }
  if !s.recording then (s, [])
  else
    let hold_time :=
      match s.press_time with
      | some t => if t = 0 then 0 else now - t
      | none => 0
    if hold_time < TOGGLE_THRESHOLD then
      ({ s with toggle_active := true }, [])
    else
      ({ s with recording := false, toggle_active := false }, [.stop])

/-- `_on_modifier_release`: stop while recording in hold mode. -/
def on_modifier_release (s : State) : State × List Signal :=
  if s.recording && !s.toggle_active then
    ({ s with recording := false }, [.stop])
  else (s, [])

end Hotkey

/-! ## audio.py -/

namespace Audio

/-- Recorder state: `_recording`, `_audio_data`, `_level_history`. -/
structure State where
  recording : Bool
  audio_data : List (List ℚ)
  level_history : List ℚ
deriving DecidableEq

/-- State as set by `AudioRecorder.__init__`. -/
def init : State := ⟨false, [], []⟩

/-- The downmix of `_audio_callback`: `indata` is a block of frames, each
frame a list of per-channel samples; with more than one channel the frame
is averaged, otherwise taken as is. -/
def monoOf (indata : List (List ℚ)) : List ℚ :=
  if (indata.headD []).length > 1 then
    indata.map (fun fr => fr.sum / (fr.length : ℚ))
  else
    indata.map (fun fr => fr.headD 0)

/-- `_audio_callback`: append the mono block to the session buffer while
recording; always push the block loudness into the level history, capped
at the 60 most recent entries.  The RMS computation
(`sqrt(mean(mono**2))`, floating point) is abstracted as the parameter
`rms`. -/
def audio_callback (rms : List ℚ → ℚ) (indata : List (List ℚ)) (s : State) : State :=
  let mono := monoOf indata
  let s := if s.recording then { s with audio_data := s.audio_data ++ [mono] } else s
  let lh := s.level_history ++ [rms mono]
  let lh := if lh.length > 60 then lh.drop (lh.length - 60) else lh
  { s with level_history := lh }

/-- `start_recording`: arm and reset the session buffer, and clear the
level history. -/
def start_recording (s : State) : State :=
  { s with recording := true, audio_data := [], level_history := [] }

/-- `stop_recording`: disarm, hand the captured blocks off flattened
(`none` when no blocks were captured), reset the session buffer. -/
def stop_recording (s : State) : Option (List ℚ) × State :=
  let captured := s.audio_data
  let s := { s with recording := false, audio_data := [] }
  if captured = [] then (none, s)
  else (some captured.flatten, s)

/-- `get_levels`.  Python `history[-count:]` is the whole list when
`count = 0` (because `-0 == 0`), hence the explicit `count = 0` case. -/
def get_levels (s : State) (count : Nat) : List ℚ :=
  let history := s.level_history
  if history = [] then List.replicate count 0
  else if count ≤ history.length then
    if count = 0 then history else history.drop (history.length - count)
  else List.replicate (count - history.length) 0 ++ history

end Audio

/-! ## transcriber.py -/

namespace Transcriber

/-- Adapter state: `_model` is `None` until `load_model`; the loaded
`WhisperModel` handle itself carries no data any claim depends on. -/
structure State where
  language : PyStr
  model : Option Unit
deriving DecidableEq

/-- `Transcriber.__init__`: the model starts unloaded. -/
def mk (language : PyStr) : State := ⟨language, none⟩

/-- `load_model`: install the model handle. -/
def load_model (s : State) : State := { s with model := some () }

/-- `transcribe`: raise `RuntimeError` when the model is not loaded;
otherwise decode and return the joined segment text stripped.  `run`
abstracts the loaded model's decoding (`self._model.transcribe` plus the
`" ".join` over segments), taking the language option computed from
`self._language`. -/
def transcribe (run : Option PyStr → List ℚ → PyStr) (s : State)
    (audio : List ℚ) : Except PyStr PyStr :=
  match s.model with
  | none => .error ("Model not loaded. Call load_model() first.".data)
  | some _ =>
    let lang := if s.language = ("auto".data) then none else some s.language
    .ok (pyStrip (run lang audio))

/-- The declared parameter names of `Transcriber.transcribe` in
transcriber.py, besides `self` (there is no `**kwargs`). -/
def transcribe_param_names : List String := ["audio", "beam_size"]

/-- The keyword-argument names that `ShuperWhisperApp._transcribe_and_inject`
(app.py) passes to `transcriber.transcribe`. -/
def app_transcribe_keyword_names : List String := ["initial_prompt", "hotwords"]

/-- Python call binding: a call binds only if every keyword argument
names a declared parameter; otherwise it raises `TypeError`. -/
def keyword_call_ok (params kwargs : List String) : Bool :=
  kwargs.all (fun k => params.contains k)

end Transcriber

/-! ## app.py : the coordinator -/

namespace App

/-- The states published through `_set_state` in app.py. -/
inductive AppState
  | loading
  | idle
  | recording
  | processing
deriving DecidableEq

/-- The coordinator system: hotkey flags, recorder state, the sequence of
states published so far, the hotkey signals emitted so far, and whether a
background transcription thread is in flight. -/
structure Sys where
  hk : Hotkey.State
  recorder : Audio.State
  published : List AppState
  signals : List Hotkey.Signal
  pending_job : Bool
deriving DecidableEq

/-- The system right after `start()` returned: `loading` and then `idle`
were published, nothing is recording or in flight. -/
def init : Sys :=
  { hk := Hotkey.init, recorder := Audio.init,
    published := [.loading, .idle], signals := [], pending_job := false }

/-- `_on_record_start`: arm the recorder, publish `recording`.  (Overlay
display, level polling and arrow-key hooks do not touch this state.) -/
def on_record_start (s : Sys) : Sys :=
  { s with recorder := Audio.start_recording s.recorder,
           published := s.published ++ [.recording] }

/-- `_on_record_stop`: disarm and take the buffer, publish `processing`,
then either dispatch the background transcription thread or publish
`idle` directly when no audio was captured. -/
def on_record_stop (s : Sys) : Sys :=
  let res := Audio.stop_recording s.recorder
  let audio := res.1
  let s := { s with recorder := res.2, published := s.published ++ [AppState.processing] }
  match audio with
  | some _ => { s with pending_job := true }
  | none => { s with published := s.published ++ [AppState.idle] }

/-- Deliver one hotkey signal to the coordinator's registered callbacks. -/
def apply_signal (s : Sys) : Hotkey.Signal → Sys
  | .start => on_record_start s
  | .stop => on_record_stop s

/-- The events that drive the system: key events on the hook thread,
capture callbacks on the audio thread, and completion of the background
transcription thread (`_transcribe_and_inject` publishing `idle`). -/
inductive Ev
  | press (modsHeld : Bool) (now : Nat)
  | release (now : Nat)
  | modifier_release
  | audio_block (indata : List (List ℚ))
  | job_done

/-- One step of the system. -/
def step (rms : List ℚ → ℚ) (s : Sys) : Ev → Sys
  | .press modsHeld now =>
    let (hk, sigs) := Hotkey.on_trigger_press modsHeld now s.hk
    sigs.foldl apply_signal { s with hk := hk, signals := s.signals ++ sigs }
  | .release now =>
    let (hk, sigs) := Hotkey.on_trigger_release now s.hk
    sigs.foldl apply_signal { s with hk := hk, signals := s.signals ++ sigs }
  | .modifier_release =>
    let (hk, sigs) := Hotkey.on_modifier_release s.hk
    sigs.foldl apply_signal { s with hk := hk, signals := s.signals ++ sigs }
  | .audio_block indata =>
    { s with recorder := Audio.audio_callback rms indata s.recorder }
  | .job_done =>
    if s.pending_job then
      { s with pending_job := false, published := s.published ++ [.idle] }
    else s

/-- Run a sequence of events. -/
def run (rms : List ℚ → ℚ) (s : Sys) : List Ev → Sys
  | [] => s
  | e :: es => run rms (step rms s e) es

end App

end ShuperWhisper


namespace ShuperWhisper

/-! ## Helper lemmas -/

/-- Empty text passes `apply_smart_spacing` unchanged. -/
lemma apply_smart_spacing_nil (ctx : Option PyStr) : apply_smart_spacing ctx [] = [] := by
  simp [apply_smart_spacing]

/-- Empty text passes `apply_bullet_mode` unchanged. -/
lemma apply_bullet_mode_nil (ctx : Option PyStr) : apply_bullet_mode ctx [] = [] := by
  simp [apply_bullet_mode]

/-- Empty text passes `apply_email_mode` unchanged. -/
lemma apply_email_mode_nil : apply_email_mode [] = [] := by
  simp [apply_email_mode]

/-- `get_levels` on an empty history: `count` zeros. -/
lemma get_levels_eq_nil {s : Audio.State} {n : Nat} (h : s.level_history = []) :
    Audio.get_levels s n = List.replicate n 0 := by
  simp [Audio.get_levels, h]

/-- `get_levels` when the history has at least `n ≥ 1` entries: the
length-`n` suffix. -/
lemma get_levels_eq_long {s : Audio.State} {n : Nat} (h : s.level_history ≠ [])
    (hle : n ≤ s.level_history.length) (hn : n ≠ 0) :
    Audio.get_levels s n = s.level_history.drop (s.level_history.length - n) := by
  simp only [Audio.get_levels]
  rw [if_neg h, if_pos hle, if_neg hn]

/-- `get_levels` when the history is shorter than `n`: left-pad with
zeros. -/
lemma get_levels_eq_short {s : Audio.State} {n : Nat}
    (hlt : s.level_history.length < n) :
    Audio.get_levels s n = List.replicate (n - s.level_history.length) 0 ++ s.level_history := by
  by_cases h : s.level_history = []
  · rw [get_levels_eq_nil h, h]
    simp
  · simp only [Audio.get_levels]
    rw [if_neg h, if_neg (by omega : ¬ n ≤ s.level_history.length)]

/-! ## Claim theorems -/

/-- C10: empty text is a fixed point of the whole post-processing
pipeline: `process_text` and each of the three shaping functions return
empty text unchanged for every context and flag combination. -/
theorem C10_empty_text_fixed_point (ctx : Option PyStr) (s b e : Bool) :
    process_text ctx [] s b e = [] ∧
    apply_smart_spacing ctx [] = [] ∧
    apply_bullet_mode ctx [] = [] ∧
    apply_email_mode [] = [] := by
  refine ⟨?_, apply_smart_spacing_nil ctx, apply_bullet_mode_nil ctx, apply_email_mode_nil⟩
  simp [process_text]

/-- C7: `process_text` applies email shaping first and independently (if
enabled), then exactly one of bullet formatting (priority) or smart
spacing; with all three flags enabled the result is bullet formatting of
the email-shaped text and smart spacing is not applied. -/
theorem C7_process_text_policy (ctx : Option PyStr) (t : PyStr) (s b e : Bool) :
    (process_text ctx t s b e =
      (let r := if e then apply_email_mode t else t
       if b then apply_bullet_mode ctx r
       else if s then apply_smart_spacing ctx r
       else r)) ∧
    process_text ctx t true true true = apply_bullet_mode ctx (apply_email_mode t) := by
  by_cases ht : t = []
  · subst ht
    simp [process_text, apply_email_mode_nil, apply_bullet_mode_nil, apply_smart_spacing_nil]
  · constructor
    · simp [process_text, ht]
    · simp [process_text, ht]

/-- C9: `transcribe` raises exactly when the model has not been loaded,
and after `load_model` it no longer raises on that precondition but
returns the transcribed text. -/
theorem C9_transcribe_precondition (run : Option PyStr → List ℚ → PyStr)
    (s : Transcriber.State) (audio : List ℚ) :
    ((∃ e, Transcriber.transcribe run s audio = Except.error e) ↔ s.model = none) ∧
    (∃ t, Transcriber.transcribe run (Transcriber.load_model s) audio = Except.ok t) := by
  rcases s with ⟨lang, m⟩
  cases m <;> simp [Transcriber.transcribe, Transcriber.load_model]

/-- C3: the coordinator's call
`transcriber.transcribe(audio, initial_prompt=..., hotwords=...)`
(app.py `_transcribe_and_inject`) does not bind against the declared
parameters of `Transcriber.transcribe` (transcriber.py declares only
`audio` and `beam_size` and no `**kwargs`), so the call raises
`TypeError` instead of returning text. -/
theorem C3_transcribe_call_does_not_bind :
    Transcriber.keyword_call_ok Transcriber.transcribe_param_names
      Transcriber.app_transcribe_keyword_names = false := by
  decide

/-- C8 counterexample: a level history holding one ambient pre-roll entry
is not preserved by `start_recording`: the history is cleared, so the
claim that `StartRecording` leaves the level history unchanged fails. -/
theorem C8_counterexample :
    (Audio.start_recording ⟨false, [], [(1:ℚ)]⟩).level_history = [] ∧
    ([(1:ℚ)] : List ℚ) ≠ [] := by
  decide

/-- C8 amended: the level history is written by the capture callback and
cleared by `start_recording` (which also arms and resets the session
buffer, discarding the ambient pre-roll); `stop_recording` disarms and
resets the session buffer while leaving the level history unchanged. -/
theorem C8_amended_control_frame (s : Audio.State) :
    (Audio.start_recording s).recording = true ∧
    (Audio.start_recording s).audio_data = [] ∧
    (Audio.start_recording s).level_history = [] ∧
    (Audio.stop_recording s).2.recording = false ∧
    (Audio.stop_recording s).2.audio_data = [] ∧
    (Audio.stop_recording s).2.level_history = s.level_history := by
  unfold Audio.start_recording Audio.stop_recording
  refine ⟨rfl, rfl, rfl, ?_, ?_, ?_⟩ <;> dsimp only <;> split <;> rfl

/-- C4 counterexample: with a non-empty level history, `get_levels 0`
returns the whole history instead of exactly `0` values, because Python's
`history[-0:]` is the whole list. -/
theorem C4_counterexample :
    Audio.get_levels ⟨false, [], [(1:ℚ)]⟩ 0 = [(1:ℚ)] ∧
    Audio.get_levels ⟨false, [], [(1:ℚ)]⟩ 0 ≠ [] := by
  decide

/-- C4 amended: for every requested count `n ≥ 1`, `get_levels` returns
exactly `n` values: all zeros on empty history, the history left-padded
with zeros when shorter than `n`, and the most recent `n` entries (the
length-`n` suffix) in order otherwise. -/
theorem C4_amended_get_levels (s : Audio.State) (n : Nat) (h1 : 1 ≤ n) :
    (Audio.get_levels s n).length = n ∧
    (s.level_history = [] → Audio.get_levels s n = List.replicate n 0) ∧
    (s.level_history.length < n →
      Audio.get_levels s n = List.replicate (n - s.level_history.length) 0 ++ s.level_history) ∧
    (n ≤ s.level_history.length →
      Audio.get_levels s n = s.level_history.drop (s.level_history.length - n)) := by
  refine ⟨?_, fun h => get_levels_eq_nil h, fun h => get_levels_eq_short h, ?_⟩
  · by_cases hnil : s.level_history = []
    · rw [get_levels_eq_nil hnil]
      simp
    · by_cases hle : n ≤ s.level_history.length
      · rw [get_levels_eq_long hnil hle (by omega)]
        simp
        omega
      · rw [get_levels_eq_short (by omega)]
        simp
        omega
  · intro hle
    have hnil : s.level_history ≠ [] := by
      intro h
      rw [h] at hle
      simp at hle
      omega
    exact get_levels_eq_long hnil hle (by omega)

/-- C4 amended, witness at a concrete input. -/
theorem C4_amended_get_levels_witness :
    1 ≤ 2 ∧
    ((Audio.get_levels ⟨false, [], [(5:ℚ)]⟩ 2).length = 2 ∧
     ((⟨false, [], [(5:ℚ)]⟩ : Audio.State).level_history = [] →
       Audio.get_levels ⟨false, [], [(5:ℚ)]⟩ 2 = List.replicate 2 0) ∧
     ((⟨false, [], [(5:ℚ)]⟩ : Audio.State).level_history.length < 2 →
       Audio.get_levels ⟨false, [], [(5:ℚ)]⟩ 2 =
         List.replicate (2 - (⟨false, [], [(5:ℚ)]⟩ : Audio.State).level_history.length) 0 ++
           (⟨false, [], [(5:ℚ)]⟩ : Audio.State).level_history) ∧
     (2 ≤ (⟨false, [], [(5:ℚ)]⟩ : Audio.State).level_history.length →
       Audio.get_levels ⟨false, [], [(5:ℚ)]⟩ 2 =
         (⟨false, [], [(5:ℚ)]⟩ : Audio.State).level_history.drop
           ((⟨false, [], [(5:ℚ)]⟩ : Audio.State).level_history.length - 2))) :=
  ⟨by decide, C4_amended_get_levels ⟨false, [], [(5:ℚ)]⟩ 2 (by decide)⟩


/-- `apply_smart_spacing` on a context with last character `c` reduces to
the four-way case split on `c`. -/
lemma apply_smart_spacing_concat (pre : PyStr) (c : Char) (t : PyStr) (ht : t ≠ []) :
    apply_smart_spacing (some (pre ++ [c])) t =
      (if c == '\n' || c == '\r' then capitalize_first t
       else if pyIsSpace c then t
       else if c ∈ SENTENCE_ENDERS then ' ' :: capitalize_first t
       else ' ' :: t) := by
  simp only [apply_smart_spacing, if_neg ht]
  rw [if_neg (by simp : ¬(pre ++ [c] = ([] : PyStr)))]
  rw [List.getLast?_concat]

/-- C6: the case analysis of `apply_smart_spacing` for non-empty text:
no context (or empty context) prefixes one space; a context ending in a
line break capitalizes with no space; other trailing whitespace leaves
the text unchanged; trailing sentence punctuation prefixes a space and
capitalizes; any other trailing character prefixes a space only — with the
four concrete instances of the claim. -/
theorem C6_smart_spacing_cases (pre t : PyStr) (c : Char) (ht : t ≠ []) :
    (apply_smart_spacing none t = ' ' :: t) ∧
    (apply_smart_spacing (some []) t = ' ' :: t) ∧
    ((c = '\n' ∨ c = '\r') → apply_smart_spacing (some (pre ++ [c])) t = capitalize_first t) ∧
    (¬(c = '\n' ∨ c = '\r') → pyIsSpace c = true →
       apply_smart_spacing (some (pre ++ [c])) t = t) ∧
    (c ∈ SENTENCE_ENDERS → apply_smart_spacing (some (pre ++ [c])) t = ' ' :: capitalize_first t) ∧
    (¬(c = '\n' ∨ c = '\r') → pyIsSpace c = false → c ∉ SENTENCE_ENDERS →
       apply_smart_spacing (some (pre ++ [c])) t = ' ' :: t) ∧
    apply_smart_spacing none ("hello".data) = (" hello".data) ∧
    apply_smart_spacing (some ("Done.".data)) ("next".data) = (" Next".data) ∧
    apply_smart_spacing (some ("foo\n".data)) ("hello".data) = ("Hello".data) ∧
    apply_smart_spacing (some ("foo ".data)) ("hello".data) = ("hello".data) := by
  refine ⟨?_, ?_, ?_, ?_, ?_, ?_, by decide, by decide, by decide, by decide⟩
  · simp [apply_smart_spacing, ht]
  · simp [apply_smart_spacing, ht]
  · intro hc
    rw [apply_smart_spacing_concat pre c t ht]
    rcases hc with rfl | rfl <;> rfl
  · intro hcn hsp
    have h1 : (c == '\n' || c == '\r') = false := by
      simp only [Bool.or_eq_false_iff, beq_eq_false_iff_ne]
      exact ⟨fun h => hcn (Or.inl h), fun h => hcn (Or.inr h)⟩
    rw [apply_smart_spacing_concat pre c t ht]
    simp [h1, hsp]
  · intro hc
    rw [apply_smart_spacing_concat pre c t ht]
    fin_cases hc <;> rfl
  · intro hcn hsp hse
    have h1 : (c == '\n' || c == '\r') = false := by
      simp only [Bool.or_eq_false_iff, beq_eq_false_iff_ne]
      exact ⟨fun h => hcn (Or.inl h), fun h => hcn (Or.inr h)⟩
    rw [apply_smart_spacing_concat pre c t ht]
    simp [h1, hsp, hse]

/-- C6 witness: the sentence-punctuation case at a concrete input. -/
theorem C6_smart_spacing_cases_witness :
    apply_smart_spacing (some (("Done".data) ++ ['.'])) ("next".data) =
      ' ' :: capitalize_first ("next".data) :=
  (C6_smart_spacing_cases ("Done".data) ("next".data) '.' (by decide)).2.2.2.2.1 (by decide)

/-- C2: hold/toggle disambiguation.  From any state with the manager not
recording and the trigger key up, a trigger press with all modifiers held
(at a positive `time.time()` timestamp) starts recording, and then:
a release at least 200 ms later stops on release (hold mode); a release
under 200 ms emits nothing, recording continues in toggle mode, and the
next trigger press with modifiers held emits `stop` instead of `start`. -/
theorem C2_hold_toggle_threshold (s : Hotkey.State) (t0 t1 : Nat)
    (hrec : s.recording = false) (hkey : s.key_is_down = false)
    (hpos : 0 < t0) :
    (Hotkey.on_trigger_press true t0 s).2 = [Hotkey.Signal.start] ∧
    (Hotkey.on_trigger_press true t0 s).1.recording = true ∧
    (Hotkey.TOGGLE_THRESHOLD ≤ t1 - t0 →
      (Hotkey.on_trigger_release t1 (Hotkey.on_trigger_press true t0 s).1).2 =
        [Hotkey.Signal.stop] ∧
      (Hotkey.on_trigger_release t1 (Hotkey.on_trigger_press true t0 s).1).1.recording =
        false) ∧
    (t1 - t0 < Hotkey.TOGGLE_THRESHOLD →
      (Hotkey.on_trigger_release t1 (Hotkey.on_trigger_press true t0 s).1).2 = [] ∧
      (Hotkey.on_trigger_release t1 (Hotkey.on_trigger_press true t0 s).1).1.recording =
        true ∧
      (∀ t2 : Nat,
        (Hotkey.on_trigger_press true t2
          (Hotkey.on_trigger_release t1 (Hotkey.on_trigger_press true t0 s).1).1).2 =
          [Hotkey.Signal.stop] ∧
        (Hotkey.on_trigger_press true t2
          (Hotkey.on_trigger_release t1 (Hotkey.on_trigger_press true t0 s).1).1).1.recording =
          false)) := by
  have ht0 : t0 ≠ 0 := by omega
  have hp : Hotkey.on_trigger_press true t0 s =
      ({ s with recording := true, key_is_down := true, press_time := some t0 },
       [Hotkey.Signal.start]) := by
    simp [Hotkey.on_trigger_press, hkey, hrec]
  refine ⟨by rw [hp], by rw [hp], ?_, ?_⟩
  · intro hhold
    have hnlt : ¬(t1 - t0 < Hotkey.TOGGLE_THRESHOLD) := by omega
    rw [hp]
    constructor
    · simp [Hotkey.on_trigger_release, ht0, hnlt]
    · simp [Hotkey.on_trigger_release, ht0, hnlt]
  · intro htap
    rw [hp]
    refine ⟨?_, ?_, fun t2 => ⟨?_, ?_⟩⟩ <;>
      simp [Hotkey.on_trigger_release, Hotkey.on_trigger_press, ht0, htap]


/-! ## C1 machinery: strict alternation of start/stop signals -/

namespace Hotkey

/-- Replay start/stop signals from a recording flag: `some r` when the
signals strictly alternate (`start` only while not recording, `stop`
only while recording), ending with flag `r`; `none` otherwise. -/
def recAfter : Bool → List Signal → Option Bool
  | r, [] => some r
  | false, Signal.start :: l => recAfter true l
  | true, Signal.stop :: l => recAfter false l
  | _, _ => none

lemma recAfter_append (r : Bool) (l1 l2 : List Signal) :
    recAfter r (l1 ++ l2) = (recAfter r l1).bind (fun x => recAfter x l2) := by
  induction l1 generalizing r with
  | nil => cases r <;> rfl
  | cons a l ih => cases r <;> cases a <;> simp [recAfter, ih]

lemma recAfter_press (m : Bool) (now : Nat) (s : State) :
    recAfter s.recording (on_trigger_press m now s).2 =
      some (on_trigger_press m now s).1.recording := by
  rcases s with ⟨r, t, k, p⟩
  cases m <;> cases k <;> cases r <;> cases t <;> simp [on_trigger_press, recAfter]

lemma recAfter_release (now : Nat) (s : State) :
    recAfter s.recording (on_trigger_release now s).2 =
      some (on_trigger_release now s).1.recording := by
  rcases s with ⟨r, t, k, p⟩
  cases r
  · simp [on_trigger_release, recAfter]
  · rcases p with _ | pt
    · simp [on_trigger_release, recAfter, TOGGLE_THRESHOLD]
    · by_cases hz : pt = 0
      · subst hz
        simp [on_trigger_release, recAfter, TOGGLE_THRESHOLD]
      · by_cases hlt : now - pt < TOGGLE_THRESHOLD
        · simp [on_trigger_release, recAfter, hz, hlt]
        · simp [on_trigger_release, recAfter, hz, hlt]

lemma recAfter_modifier (s : State) :
    recAfter s.recording (on_modifier_release s).2 =
      some (on_modifier_release s).1.recording := by
  rcases s with ⟨r, t, k, p⟩
  cases r <;> cases t <;> simp [on_modifier_release, recAfter]

end Hotkey

namespace App

lemma apply_signal_hk_signals (s : Sys) (g : Hotkey.Signal) :
    (apply_signal s g).hk = s.hk ∧ (apply_signal s g).signals = s.signals := by
  cases g
  · exact ⟨rfl, rfl⟩
  · unfold apply_signal on_record_stop
    constructor <;> (dsimp only; split <;> rfl)

lemma foldl_apply_signal_hk_signals (sigs : List Hotkey.Signal) (s : Sys) :
    ((sigs.foldl apply_signal s).hk = s.hk) ∧
    ((sigs.foldl apply_signal s).signals = s.signals) := by
  induction sigs generalizing s with
  | nil => exact ⟨rfl, rfl⟩
  | cons g gs ih =>
    have h1 := apply_signal_hk_signals s g
    have h2 := ih (apply_signal s g)
    exact ⟨h2.1.trans h1.1, h2.2.trans h1.2⟩

/-- One step preserves the signal-alternation invariant. -/
lemma step_alternation (rms : List ℚ → ℚ) (s : Sys) (e : Ev)
    (h : Hotkey.recAfter false s.signals = some s.hk.recording) :
    Hotkey.recAfter false (step rms s e).signals =
      some (step rms s e).hk.recording := by
  cases e with
  | press m now =>
    have hps := Hotkey.recAfter_press m now s.hk
    rcases hp : Hotkey.on_trigger_press m now s.hk with ⟨hk2, sigs⟩
    rw [hp] at hps
    simp only [step, hp]
    have hf := foldl_apply_signal_hk_signals sigs
      { s with hk := hk2, signals := s.signals ++ sigs }
    rw [hf.1, hf.2, Hotkey.recAfter_append, h]
    simpa using hps
  | release now =>
    have hps := Hotkey.recAfter_release now s.hk
    rcases hp : Hotkey.on_trigger_release now s.hk with ⟨hk2, sigs⟩
    rw [hp] at hps
    simp only [step, hp]
    have hf := foldl_apply_signal_hk_signals sigs
      { s with hk := hk2, signals := s.signals ++ sigs }
    rw [hf.1, hf.2, Hotkey.recAfter_append, h]
    simpa using hps
  | modifier_release =>
    have hps := Hotkey.recAfter_modifier s.hk
    rcases hp : Hotkey.on_modifier_release s.hk with ⟨hk2, sigs⟩
    rw [hp] at hps
    simp only [step, hp]
    have hf := foldl_apply_signal_hk_signals sigs
      { s with hk := hk2, signals := s.signals ++ sigs }
    rw [hf.1, hf.2, Hotkey.recAfter_append, h]
    simpa using hps
  | audio_block indata => exact h
  | job_done =>
    simp only [step]
    split <;> exact h

/-- Running any event sequence preserves the alternation invariant. -/
lemma run_alternation (rms : List ℚ → ℚ) (evs : List Ev) :
    ∀ s : Sys, Hotkey.recAfter false s.signals = some s.hk.recording →
      Hotkey.recAfter false (run rms s evs).signals =
        some (run rms s evs).hk.recording := by
  induction evs with
  | nil => exact fun s h => h
  | cons e es ih => exact fun s h => ih _ (step_alternation rms s e h)

end App

/-! ## C1 theorems -/

/-- C1 counterexample: a hold-mode utterance (press at 1000 ms, release at
1300 ms) dispatches a background transcription (Processing, job in
flight); a new trigger press at 2000 ms, before the job completes,
publishes `recording` again — a new recording begins during Processing —
and a second release yields two Recording→Processing transitions with no
intervening Idle. -/
theorem C1_counterexample :
    ((App.run (fun _ => 0) App.init
       [App.Ev.press true 1000, App.Ev.audio_block [[3]], App.Ev.release 1300]).published.getLast?
       = some App.AppState.processing) ∧
    (App.run (fun _ => 0) App.init
       [App.Ev.press true 1000, App.Ev.audio_block [[3]], App.Ev.release 1300]).pending_job
       = true ∧
    ((App.run (fun _ => 0) App.init
       [App.Ev.press true 1000, App.Ev.audio_block [[3]], App.Ev.release 1300,
        App.Ev.press true 2000]).published.getLast? = some App.AppState.recording) ∧
    (App.run (fun _ => 0) App.init
       [App.Ev.press true 1000, App.Ev.audio_block [[3]], App.Ev.release 1300,
        App.Ev.press true 2000, App.Ev.audio_block [[3]], App.Ev.release 2300]).published =
      [App.AppState.loading, App.AppState.idle, App.AppState.recording,
       App.AppState.processing, App.AppState.recording, App.AppState.processing] := by
  decide

/-- C1 amended: the start/stop guard lives in the hotkey manager alone:
over every event sequence the emitted signals strictly alternate
(`start`, `stop`, `start`, ...), so no second `StartRecording` occurs
without an intervening `StopRecording`; but Processing does not refuse a
new start — from any state with the manager's flags clear and a
transcription job still in flight, a trigger press with modifiers held
publishes `recording` while the job remains pending. -/
theorem C1_amended_start_guard (rms : List ℚ → ℚ) (evs : List App.Ev)
    (s : App.Sys) (now : Nat)
    (hrec : s.hk.recording = false) (hkey : s.hk.key_is_down = false)
    (hjob : s.pending_job = true) :
    (Hotkey.recAfter false (App.run rms App.init evs).signals =
       some (App.run rms App.init evs).hk.recording) ∧
    (App.step rms s (App.Ev.press true now)).published =
       s.published ++ [App.AppState.recording] ∧
    (App.step rms s (App.Ev.press true now)).pending_job = true := by
  refine ⟨App.run_alternation rms evs App.init rfl, ?_, ?_⟩ <;>
    simp [App.step, Hotkey.on_trigger_press, hkey, hrec, App.apply_signal,
      App.on_record_start, hjob]

/-- C1 amended, witness: the alternation invariant on a two-utterance
trace, and a press during Processing at a concrete state. -/
theorem C1_amended_start_guard_witness :
    (Hotkey.recAfter false
       (App.run (fun _ => 0) App.init
         [App.Ev.press true 1000, App.Ev.release 1300,
          App.Ev.press true 2000, App.Ev.release 2300]).signals =
       some (App.run (fun _ => 0) App.init
         [App.Ev.press true 1000, App.Ev.release 1300,
          App.Ev.press true 2000, App.Ev.release 2300]).hk.recording) ∧
    (App.step (fun _ => 0)
       ⟨Hotkey.init, Audio.init, [App.AppState.processing], [], true⟩
       (App.Ev.press true 5000)).published =
      [App.AppState.processing] ++ [App.AppState.recording] ∧
    (App.step (fun _ => 0)
       ⟨Hotkey.init, Audio.init, [App.AppState.processing], [], true⟩
       (App.Ev.press true 5000)).pending_job = true :=
  C1_amended_start_guard (fun _ => 0)
    [App.Ev.press true 1000, App.Ev.release 1300,
     App.Ev.press true 2000, App.Ev.release 2300]
    ⟨Hotkey.init, Audio.init, [App.AppState.processing], [], true⟩
    5000 rfl rfl rfl



/-! ## C2 witness -/

/-- C2 witness: a 300 ms hold stops on release; a 100 ms tap emits
nothing on release. -/
theorem C2_hold_toggle_threshold_witness :
    (Hotkey.on_trigger_release 1300 (Hotkey.on_trigger_press true 1000 Hotkey.init).1).2 =
      [Hotkey.Signal.stop] ∧
    (Hotkey.on_trigger_release 1100 (Hotkey.on_trigger_press true 1000 Hotkey.init).1).2 =
      [] :=
  ⟨((C2_hold_toggle_threshold Hotkey.init 1000 1300 rfl rfl (by decide)).2.2.1
      (by decide)).1,
   ((C2_hold_toggle_threshold Hotkey.init 1000 1100 rfl rfl (by decide)).2.2.2
      (by decide)).1⟩

/-! ## C5 machinery: character-level facts about ASCII case folding -/

lemma char_toNat_ofNat {n : Nat} (h : n.isValidChar) : (Char.ofNat n).toNat = n := by
  rw [Char.ofNat, dif_pos h]
  rfl

lemma toLower_toNat_of_upper {c : Char} (h1 : 65 ≤ c.toNat) (h2 : c.toNat ≤ 90) :
    (Char.toLower c).toNat = c.toNat + 32 := by
  have he : Char.toLower c = Char.ofNat (c.toNat + 32) := by
    rw [show Char.toLower c =
         if c.toNat ≥ 65 ∧ c.toNat ≤ 90 then Char.ofNat (c.toNat + 32) else c from rfl,
       if_pos ⟨h1, h2⟩]
  rw [he, char_toNat_ofNat (Or.inl (by omega))]

lemma toLower_eq_self_of_not_upper {c : Char} (h : ¬(c.toNat ≥ 65 ∧ c.toNat ≤ 90)) :
    Char.toLower c = c := by
  rw [show Char.toLower c =
       if c.toNat ≥ 65 ∧ c.toNat ≤ 90 then Char.ofNat (c.toNat + 32) else c from rfl,
     if_neg h]

/-- ASCII lowering hits `+` only from `+` itself. -/
lemma toLower_eq_plus_iff (c : Char) : Char.toLower c = '+' ↔ c = '+' := by
  by_cases h : c.toNat ≥ 65 ∧ c.toNat ≤ 90
  · have ht := toLower_toNat_of_upper h.1 h.2
    constructor
    · intro he
      rw [he] at ht
      have h43 : ('+').toNat = 43 := rfl
      rw [h43] at ht
      omega
    · intro he
      subst he
      exact absurd h (by decide)
  · rw [toLower_eq_self_of_not_upper h]

lemma pyIsSpace_eq_false_of_ge {x : Char} (h : 33 ≤ x.toNat) : pyIsSpace x = false := by
  simp only [pyIsSpace, Bool.or_eq_false_iff, beq_eq_false_iff_ne, ne_eq]
  refine ⟨⟨⟨⟨⟨?_, ?_⟩, ?_⟩, ?_⟩, ?_⟩, ?_⟩ <;> (rintro rfl; exact absurd h (by decide))

/-- ASCII lowering preserves whitespace-ness. -/
lemma pyIsSpace_toLower (c : Char) : pyIsSpace (Char.toLower c) = pyIsSpace c := by
  by_cases h : c.toNat ≥ 65 ∧ c.toNat ≤ 90
  · have ht := toLower_toNat_of_upper h.1 h.2
    have ha : 33 ≤ (Char.toLower c).toNat := by omega
    have hb : 33 ≤ c.toNat := by omega
    rw [pyIsSpace_eq_false_of_ge ha, pyIsSpace_eq_false_of_ge hb]
  · rw [toLower_eq_self_of_not_upper h]

/-! ## C5 machinery: splitting and stripping congruences -/

lemma pySplit_ne_nil (sep : Char) (l : PyStr) : pySplit sep l ≠ [] := by
  cases l with
  | nil => simp [pySplit]
  | cons c rest =>
    simp only [pySplit]
    split
    · simp
    · split <;> simp

lemma pySplit_pyLower (s : PyStr) :
    pySplit '+' (pyLower s) = (pySplit '+' s).map pyLower := by
  induction s with
  | nil => rfl
  | cons c rest ih =>
    simp only [pyLower, List.map_cons] at ih ⊢
    by_cases hc : c = '+'
    · subst hc
      rw [show Char.toLower '+' = '+' from rfl]
      simp only [pySplit, if_pos rfl, List.map_cons]
      rw [ih]
      rfl
    · have hc2 : Char.toLower c ≠ '+' := fun hx => hc ((toLower_eq_plus_iff c).mp hx)
      simp only [pySplit, if_neg hc, if_neg hc2]
      rw [ih]
      rcases hp : pySplit '+' rest with _ | ⟨p, ps⟩
      · exact absurd hp (pySplit_ne_nil '+' rest)
      · simp [pyLower]

lemma dropWhile_space_pyLower (l : PyStr) :
    (pyLower l).dropWhile pyIsSpace = pyLower (l.dropWhile pyIsSpace) := by
  induction l with
  | nil => rfl
  | cons c rest ih =>
    simp only [pyLower, List.map_cons, List.dropWhile_cons] at ih ⊢
    rw [pyIsSpace_toLower]
    cases hc : pyIsSpace c <;> simp [hc, ih]

lemma pyStripLeft_pyLower (l : PyStr) :
    pyStripLeft (pyLower l) = pyLower (pyStripLeft l) := by
  simp only [pyStripLeft, dropWhile_space_pyLower]

lemma pyStripRight_pyLower (l : PyStr) :
    pyStripRight (pyLower l) = pyLower (pyStripRight l) := by
  simp only [pyStripRight, pyLower]
  rw [← List.map_reverse]
  rw [show List.dropWhile pyIsSpace (List.map Char.toLower l.reverse) =
       List.map Char.toLower (List.dropWhile pyIsSpace l.reverse) from
     dropWhile_space_pyLower l.reverse]
  simp [List.map_reverse]

lemma pyStrip_pyLower (l : PyStr) : pyStrip (pyLower l) = pyLower (pyStrip l) := by
  simp only [pyStrip, pyStripLeft_pyLower, pyStripRight_pyLower]

lemma hotkeyParts_eq_map_lower (u : PyStr) :
    hotkeyParts u = (pySplit '+' (pyLower u)).map pyStrip := by
  unfold hotkeyParts
  rw [pySplit_pyLower, List.map_map]
  have hfun : (fun p => pyLower (pyStrip p)) = (pyStrip ∘ pyLower) :=
    funext fun p => (pyStrip_pyLower p).symm
  rw [hfun]

lemma hotkeyParts_congr_lower {s t : PyStr} (h : pyLower s = pyLower t) :
    hotkeyParts s = hotkeyParts t := by
  rw [hotkeyParts_eq_map_lower, hotkeyParts_eq_map_lower, h]

lemma parse_hotkey_congr {s t : PyStr} (h : hotkeyParts s = hotkeyParts t) :
    parse_hotkey s = parse_hotkey t := by
  unfold parse_hotkey
  rw [h]

lemma pyStripLeft_space_prepend {w : PyStr} (x : PyStr)
    (hw : ∀ c ∈ w, pyIsSpace c = true) : pyStripLeft (w ++ x) = pyStripLeft x := by
  simp only [pyStripLeft, List.dropWhile_append]
  rw [List.dropWhile_eq_nil_iff.mpr hw]
  rfl

lemma pyStripRight_space_append {w : PyStr} (x : PyStr)
    (hw : ∀ c ∈ w, pyIsSpace c = true) : pyStripRight (x ++ w) = pyStripRight x := by
  simp only [pyStripRight, List.reverse_append]
  rw [show (w.reverse ++ x.reverse).dropWhile pyIsSpace = x.reverse.dropWhile pyIsSpace from by
    simp only [List.dropWhile_append]
    rw [List.dropWhile_eq_nil_iff.mpr (fun c hc => hw c (List.mem_reverse.mp hc))]
    rfl]

/-- Surrounding whitespace around a part does not change its strip. -/
lemma pyStrip_pad (w1 p w2 : PyStr)
    (h1 : ∀ c ∈ w1, pyIsSpace c = true) (h2 : ∀ c ∈ w2, pyIsSpace c = true) :
    pyStrip (w1 ++ p ++ w2) = pyStrip p := by
  unfold pyStrip
  rw [List.append_assoc, pyStripLeft_space_prepend (p ++ w2) h1]
  by_cases hp : pyStripLeft p = []
  · have hall : ∀ c ∈ p, pyIsSpace c = true := List.dropWhile_eq_nil_iff.mp hp
    have hp2 : pyStripLeft (p ++ w2) = [] := by
      apply List.dropWhile_eq_nil_iff.mpr
      intro c hc
      rcases List.mem_append.mp hc with h | h
      · exact hall c h
      · exact h2 c h
    rw [hp, hp2]
  · have hsplit : pyStripLeft (p ++ w2) = pyStripLeft p ++ w2 := by
      simp only [pyStripLeft, List.dropWhile_append]
      rw [if_neg]
      simp only [List.isEmpty_iff]
      exact hp
    rw [hsplit, pyStripRight_space_append (pyStripLeft p) h2]

lemma parse_hotkey_snd (s : PyStr) :
    (parse_hotkey s).2 = (hotkeyParts s).getLastD [] := by
  unfold parse_hotkey
  rcases hp : hotkeyParts s with _ | ⟨p, _ | ⟨q, rest⟩⟩ <;> simp

/-! ## C5 theorems -/

/-- C5 counterexample: `parse_hotkey "ctrl+shift"` yields trigger
`"shift"`, which is itself a modifier identifier — the parser does not
enforce that the trigger is never a modifier. -/
theorem C5_counterexample :
    parse_hotkey ("ctrl+shift".data) = ([("ctrl".data)], ("shift".data)) ∧
    ("shift".data) ∈ MODIFIER_NAMES := by
  decide

/-- C5 amended: parsing is case-insensitive (strings equal up to ASCII
case parse identically) and tolerant of surrounding whitespace in each
part (parsing depends only on the stripped `+`-separated parts, and
stripping ignores surrounding whitespace); the trigger is a modifier
identifier only when the hotkey string's own last part (stripped,
lowered) is one. -/
theorem C5_amended_parse_hotkey :
    (∀ s t : PyStr, pyLower s = pyLower t → parse_hotkey s = parse_hotkey t) ∧
    (∀ s t : PyStr, (pySplit '+' s).map pyStrip = (pySplit '+' t).map pyStrip →
       parse_hotkey s = parse_hotkey t) ∧
    (∀ w1 p w2 : PyStr, (∀ c ∈ w1, pyIsSpace c = true) → (∀ c ∈ w2, pyIsSpace c = true) →
       pyStrip (w1 ++ p ++ w2) = pyStrip p) ∧
    (∀ s : PyStr, (hotkeyParts s).getLastD [] ∉ MODIFIER_NAMES →
       (parse_hotkey s).2 ∉ MODIFIER_NAMES) := by
  refine ⟨?_, ?_, pyStrip_pad, ?_⟩
  · intro s t h
    exact parse_hotkey_congr (hotkeyParts_congr_lower h)
  · intro s t h
    apply parse_hotkey_congr
    unfold hotkeyParts
    have key : ∀ u : PyStr,
        (pySplit '+' u).map (fun p => pyLower (pyStrip p)) =
          ((pySplit '+' u).map pyStrip).map pyLower := by
      intro u
      rw [List.map_map]
      rfl
    rw [key s, key t, h]
  · intro s h
    rw [parse_hotkey_snd]
    exact h

/-- C5 amended, witness at concrete hotkey strings. -/
theorem C5_amended_parse_hotkey_witness :
    parse_hotkey ("CTRL+Shift+A".data) = parse_hotkey ("ctrl+shift+a".data) ∧
    parse_hotkey (" ctrl + a ".data) = parse_hotkey ("ctrl+a".data) ∧
    pyStrip ((" ".data) ++ ("abc".data) ++ ("  ".data)) = pyStrip ("abc".data) ∧
    (parse_hotkey ("ctrl+space".data)).2 ∉ MODIFIER_NAMES :=
  ⟨C5_amended_parse_hotkey.1 _ _ (by decide),
   C5_amended_parse_hotkey.2.1 _ _ (by decide),
   C5_amended_parse_hotkey.2.2.1 _ _ _ (by decide) (by decide),
   C5_amended_parse_hotkey.2.2.2 _ (by decide)⟩


end ShuperWhisper
